import Mathlib

/-
Verification of the lazy materializing adapter `OpendalReader`
(crates/polars-io/src/opendal.rs).

The adapter wraps a `OnceLock<Option<Cursor<Vec<u8>>>>`:
- the outer `Option` models the `OnceLock` initialization state,
- the inner `Option` is the cached fetch result (`None` = fetch failed
  or the path was not representable as a UTF-8 string),
- `Cursor<Vec<u8>>` is the std cursor: a byte buffer plus a u64 position.

`read` and `seek` delegate to the std `Cursor` implementation, whose
semantics (including the `u64::checked_add_signed` overflow check in
`seek`) is embedded below.
-/

namespace Opendal

/-- A byte value (the value of a `u8`). -/
abbrev Byte := Nat

/-- Number of values of a `u64`; positions and buffer lengths live below it. -/
def U64_SIZE : Nat := 2 ^ 64

/-- std `io::Cursor<Vec<u8>>`: an owned byte buffer together with a
u64 read position. -/
structure Cursor where
  data : List Byte
  pos : Nat
  deriving DecidableEq, Repr

/-- std `io::SeekFrom`: `Start` carries a u64, `End` and `Current` carry
an i64 offset. -/
inductive SeekFrom where
  | start : Nat → SeekFrom
  | endPos : Int → SeekFrom
  | current : Int → SeekFrom
  deriving DecidableEq, Repr

/-- Embeds `u64::checked_add_signed`: `base + off` when the result is a valid
u64, `none` on a negative or overflowing result. -/
def checkedAddSigned (base : Nat) (off : Int) : Option Nat :=
  let r : Int := (base : Int) + off
  if 0 ≤ r ∧ r < (U64_SIZE : Int) then some r.toNat else none

/-- Embeds `<Cursor<Vec<u8>> as Read>::read` into a buffer of length `k`:
copies `min k (len - min pos len)` bytes of the buffer starting at the
current position, advances the position by the copied count, and
returns the count together with the copied bytes. -/
def Cursor.readBytes (c : Cursor) (k : Nat) : Cursor × Nat × List Byte :=
  let copied := (c.data.drop (min c.pos c.data.length)).take k
  (⟨c.data, c.pos + copied.length⟩, copied.length, copied)

/-- Embeds `<Cursor<Vec<u8>> as Seek>::seek`: `Start n` sets the position to
`n` unconditionally; `End off` and `Current off` go through
`u64::checked_add_signed` from the buffer length, resp. the current
position, leaving the position unchanged and reporting an error
(`none`) when the target is negative or overflows a u64. -/
def Cursor.seekTo (c : Cursor) (s : SeekFrom) : Cursor × Option Nat :=
  match s with
  | .start n => (⟨c.data, n⟩, some n)
  | .endPos off =>
    match checkedAddSigned c.data.length off with
    | some n => (⟨c.data, n⟩, some n)
    | none => (c, none)
  | .current off =>
    match checkedAddSigned c.pos off with
    | some n => (⟨c.data, n⟩, some n)
    | none => (c, none)

/-- Outcome of `self.path.to_str().and_then(|s| self.operator.blocking().read(s))`,
the external collaborator call made by the init closure of `get_bytes`:
the path may be unrepresentable as UTF-8, the blocking read may fail
with some error detail (an abstract code), or it yields the object's bytes. -/
inductive FetchOutcome where
  | pathUnrepresentable : FetchOutcome
  | readErr : Nat → FetchOutcome
  | success : List Byte → FetchOutcome
  deriving DecidableEq, Repr

/-- The init closure of `get_bytes`:
`self.path.to_str().and_then(|s| self.operator.blocking().read(s).ok()).map(|b| Cursor::new(b.to_vec()))`.
Every failure is collapsed to `none`; success yields a cursor at position 0. -/
def fetchInit : FetchOutcome → Option Cursor
  | .success b => some ⟨b, 0⟩
  | .pathUnrepresentable => none
  | .readErr _ => none

/-- The adapter `OpendalReader`: the operator and path are abstracted
into the `FetchOutcome` their one blocking read would produce; `bytes`
is the `OnceLock<Option<Cursor<Vec<u8>>>>` (`none` = uninitialized). -/
structure OpendalReader where
  fetch : FetchOutcome
  bytes : Option (Option Cursor)
  deriving DecidableEq, Repr

/-- Embeds `OpendalReader::new`: the cell starts uninitialized. -/
def OpendalReader.new (fetch : FetchOutcome) : OpendalReader :=
  ⟨fetch, none⟩

/-- Embeds `OpendalReader::get_bytes`: `self.bytes.get_or_init(|| ...)`.
Returns the cached value, the resulting state, and whether the init
closure (and hence the fetch attempt) ran on this call. -/
def OpendalReader.get_bytes (r : OpendalReader) :
    Option Cursor × OpendalReader × Bool :=
  match r.bytes with
  | some v => (v, r, false)
  | none => (fetchInit r.fetch, ⟨r.fetch, some (fetchInit r.fetch)⟩, true)

/-- Embeds `OpendalReader::get_bytes_mut`: runs `get_bytes` (forcing
initialization), then `self.bytes.get_mut()`. The first component is
the `Option` that `get_mut` returns, on which the source calls
`.unwrap()`; `none` there would be a panic of `get_bytes_mut` itself. -/
def OpendalReader.get_bytes_mut (r : OpendalReader) :
    Option (Option Cursor) × OpendalReader × Bool :=
  let s := r.get_bytes
  (s.2.1.bytes, s.2.1, s.2.2)

/-- Embeds `<OpendalReader as MmapBytesReader>::to_bytes`:
`self.get_bytes().as_ref().map(|c| c.get_ref().as_ref())` — the whole
buffer when present, `none` when absent. Returns the view, the
resulting state, and the fetch flag. -/
def OpendalReader.to_bytes (r : OpendalReader) :
    Option (List Byte) × OpendalReader × Bool :=
  let s := r.get_bytes
  (s.1.map Cursor.data, s.2.1, s.2.2)

/-- Embeds `<OpendalReader as Read>::read` with a caller buffer of length `k`:
`self.get_bytes_mut()` then `cursor.as_mut().unwrap().read(buf)`.
The second component is `none` when the call panics (either unwrap);
otherwise it carries the returned count, the bytes written into the
caller's buffer, and the new state. The first component records
whether this call ran the fetch. -/
def OpendalReader.read (r : OpendalReader) (k : Nat) :
    Bool × Option (Nat × List Byte × OpendalReader) :=
  match r.get_bytes_mut with
  | (none, _, f) => (f, none)
  | (some none, _, f) => (f, none)
  | (some (some c), r', f) =>
    let s := c.readBytes k
    (f, some (s.2.1, s.2.2, ⟨r'.fetch, some (some s.1)⟩))

/-- Embeds `<OpendalReader as Seek>::seek`: `self.get_bytes_mut()` then
`cursor.as_mut().unwrap().seek(pos)`. The second component is `none`
when the call panics; otherwise it carries the `io::Result` of the
cursor seek (`none` = reported error, position unchanged) and the new
state. -/
def OpendalReader.seek (r : OpendalReader) (s : SeekFrom) :
    Bool × Option (Option Nat × OpendalReader) :=
  match r.get_bytes_mut with
  | (none, _, f) => (f, none)
  | (some none, _, f) => (f, none)
  | (some (some c), r', f) =>
    let t := c.seekTo s
    (f, some (t.2, ⟨r'.fetch, some (some t.1)⟩))

/-- One call a downstream consumer can make on the adapter. -/
inductive Op where
  | view : Op
  | read : Nat → Op
  | seek : SeekFrom → Op
  deriving DecidableEq, Repr

/-- What a caller observes from one call. -/
inductive Obs where
  | viewed : Option (List Byte) → Obs
  | readRes : Nat → List Byte → Obs
  | sought : Option Nat → Obs
  | panicked : Obs
  deriving DecidableEq, Repr

/-- Runs one call: observation, whether the fetch ran on this call, and
the resulting state (`none` = the call panicked). -/
def runOp (r : OpendalReader) : Op → Obs × Bool × Option OpendalReader
  | .view =>
    let s := r.to_bytes
    (.viewed s.1, s.2.2, some s.2.1)
  | .read k =>
    match r.read k with
    | (f, none) => (.panicked, f, none)
    | (f, some (n, copied, r')) => (.readRes n copied, f, some r')
  | .seek s =>
    match r.seek s with
    | (f, none) => (.panicked, f, none)
    | (f, some (res, r')) => (.sought res, f, some r')

/-- Runs a finite sequence of calls, collecting the observations, the
total number of fetch attempts, and the final state (`none` = some
call panicked; a panicking call still counts its own fetch attempt,
which happens before the unwrap). -/
def runOps (r : OpendalReader) : List Op → List Obs × Nat × Option OpendalReader
  | [] => ([], 0, some r)
  | op :: ops =>
    match runOp r op with
    | (o, f, none) => ([o], (bif f then 1 else 0), none)
    | (o, f, some r') =>
      let t := runOps r' ops
      (o :: t.1, (bif f then 1 else 0) + t.2.1, t.2.2)

/-- The materialized content the next operation will act on: the byte
buffer after forcing initialization, `none` when absent. -/
def OpendalReader.contentOf (r : OpendalReader) : Option (List Byte) :=
  (r.get_bytes).1.map Cursor.data

/-- The cursor the next operation will act on, after forcing
initialization. -/
def OpendalReader.readerCursor (r : OpendalReader) : Option Cursor :=
  (r.get_bytes).1

/-- The cached value with the cursor position erased: initialization
state and, when initialized, presence and the byte buffer. -/
def OpendalReader.cachedContent (r : OpendalReader) : Option (Option (List Byte)) :=
  r.bytes.map (Option.map Cursor.data)

/-! Basic lemmas about the embedding. -/

theorem readerCursor_eq (r : OpendalReader) :
    r.readerCursor = r.bytes.getD (fetchInit r.fetch) := by
  cases h : r.bytes <;>
    simp [OpendalReader.readerCursor, OpendalReader.get_bytes, h]

theorem contentOf_eq (r : OpendalReader) :
    r.contentOf = r.readerCursor.map Cursor.data := by
  rfl

theorem get_bytes_fst (r : OpendalReader) : (r.get_bytes).1 = r.readerCursor :=
  rfl

theorem get_bytes_flag (r : OpendalReader) :
    (r.get_bytes).2.2 = r.bytes.isNone := by
  cases h : r.bytes <;> simp [OpendalReader.get_bytes, h]

theorem get_bytes_state_bytes (r : OpendalReader) :
    (r.get_bytes).2.1.bytes = some r.readerCursor := by
  cases h : r.bytes <;>
    simp [OpendalReader.get_bytes, OpendalReader.readerCursor, h]

theorem get_bytes_state_fetch (r : OpendalReader) :
    (r.get_bytes).2.1.fetch = r.fetch := by
  cases h : r.bytes <;> simp [OpendalReader.get_bytes, h]

theorem get_bytes_of_init (r : OpendalReader) (v : Option Cursor)
    (h : r.bytes = some v) : r.get_bytes = (v, r, false) := by
  simp [OpendalReader.get_bytes, h]

theorem get_bytes_mut_eq (r : OpendalReader) :
    r.get_bytes_mut = (some r.readerCursor, (r.get_bytes).2.1, r.bytes.isNone) := by
  simp [OpendalReader.get_bytes_mut, get_bytes_state_bytes, get_bytes_flag]

theorem to_bytes_eq (r : OpendalReader) :
    r.to_bytes = (r.readerCursor.map Cursor.data, (r.get_bytes).2.1, r.bytes.isNone) := by
  simp [OpendalReader.to_bytes, get_bytes_fst, get_bytes_flag]

theorem read_of_cursor (r : OpendalReader) (c : Cursor) (k : Nat)
    (h : r.readerCursor = some c) :
    r.read k = (r.bytes.isNone,
      some ((c.readBytes k).2.1, (c.readBytes k).2.2,
        ⟨r.fetch, some (some (c.readBytes k).1)⟩)) := by
  simp [OpendalReader.read, get_bytes_mut_eq, h, get_bytes_state_fetch]

theorem read_of_absent (r : OpendalReader) (k : Nat)
    (h : r.readerCursor = none) :
    r.read k = (r.bytes.isNone, none) := by
  simp [OpendalReader.read, get_bytes_mut_eq, h]

theorem seek_of_cursor (r : OpendalReader) (c : Cursor) (s : SeekFrom)
    (h : r.readerCursor = some c) :
    r.seek s = (r.bytes.isNone,
      some ((c.seekTo s).2, ⟨r.fetch, some (some (c.seekTo s).1)⟩)) := by
  simp [OpendalReader.seek, get_bytes_mut_eq, h, get_bytes_state_fetch]

theorem seek_of_absent (r : OpendalReader) (s : SeekFrom)
    (h : r.readerCursor = none) :
    r.seek s = (r.bytes.isNone, none) := by
  simp [OpendalReader.seek, get_bytes_mut_eq, h]

theorem seekTo_data (c : Cursor) (s : SeekFrom) : ((c.seekTo s).1).data = c.data := by
  cases s with
  | start n => rfl
  | endPos off =>
    simp only [Cursor.seekTo]
    cases checkedAddSigned c.data.length off <;> rfl
  | current off =>
    simp only [Cursor.seekTo]
    cases checkedAddSigned c.pos off <;> rfl

theorem readBytes_data (c : Cursor) (k : Nat) : ((c.readBytes k).1).data = c.data :=
  rfl

/-! Invariants of single calls and of call sequences. -/

theorem runOp_flag (r : OpendalReader) (op : Op) :
    (runOp r op).2.1 = r.bytes.isNone := by
  cases op with
  | view => simp [runOp, to_bytes_eq]
  | read k =>
    cases h : r.readerCursor with
    | none => simp [runOp, read_of_absent r k h]
    | some c => simp [runOp, read_of_cursor r c k h]
  | seek s =>
    cases h : r.readerCursor with
    | none => simp [runOp, seek_of_absent r s h]
    | some c => simp [runOp, seek_of_cursor r c s h]

theorem runOp_some (r : OpendalReader) (op : Op) (r' : OpendalReader)
    (h : (runOp r op).2.2 = some r') :
    r'.fetch = r.fetch ∧ r'.bytes = some r.readerCursor ∨
    r'.fetch = r.fetch ∧ ∃ c : Cursor, r'.bytes = some (some c) ∧
      r.contentOf = some c.data := by
  cases op with
  | view =>
    left
    simp only [runOp, to_bytes_eq, Option.some.injEq] at h
    subst h
    exact ⟨get_bytes_state_fetch r, get_bytes_state_bytes r⟩
  | read k =>
    cases hc : r.readerCursor with
    | none => simp [runOp, read_of_absent r k hc] at h
    | some c =>
      right
      simp only [runOp, read_of_cursor r c k hc, Option.some.injEq] at h
      subst h
      exact ⟨rfl, (c.readBytes k).1, rfl, by
        simp [contentOf_eq, hc, readBytes_data]⟩
  | seek s =>
    cases hc : r.readerCursor with
    | none => simp [runOp, seek_of_absent r s hc] at h
    | some c =>
      right
      simp only [runOp, seek_of_cursor r c s hc, Option.some.injEq] at h
      subst h
      exact ⟨rfl, (c.seekTo s).1, rfl, by
        simp [contentOf_eq, hc, seekTo_data]⟩

theorem runOp_some_fetch (r : OpendalReader) (op : Op) (r' : OpendalReader)
    (h : (runOp r op).2.2 = some r') : r'.fetch = r.fetch := by
  rcases runOp_some r op r' h with ⟨hf, _⟩ | ⟨hf, _⟩ <;> exact hf

theorem runOp_some_isSome (r : OpendalReader) (op : Op) (r' : OpendalReader)
    (h : (runOp r op).2.2 = some r') : r'.bytes.isSome := by
  rcases runOp_some r op r' h with ⟨_, hb⟩ | ⟨_, c, hb, _⟩ <;> simp [hb]

theorem runOp_some_contentOf (r : OpendalReader) (op : Op) (r' : OpendalReader)
    (h : (runOp r op).2.2 = some r') : r'.contentOf = r.contentOf := by
  rcases runOp_some r op r' h with ⟨_, hb⟩ | ⟨_, c, hb, hd⟩
  · simp [contentOf_eq, readerCursor_eq, hb]
  · have : r'.contentOf = some c.data := by
      simp [contentOf_eq, readerCursor_eq, hb]
    rw [this, hd]

theorem runOps_count_zero (ops : List Op) :
    ∀ r : OpendalReader, r.bytes.isSome → (runOps r ops).2.1 = 0 := by
  induction ops with
  | nil => intro r _; rfl
  | cons op ops ih =>
    intro r h
    have hflag : (runOp r op).2.1 = false := by
      rw [runOp_flag]
      cases hb : r.bytes
      · rw [hb] at h; simp at h
      · rfl
    rcases hres : (runOp r op).2.2 with _ | r'
    · match hstep : runOp r op with
      | (o, f, res) =>
        rw [hstep] at hres hflag
        simp only at hres hflag
        subst hres hflag
        simp [runOps, hstep]
    · match hstep : runOp r op with
      | (o, f, res) =>
        rw [hstep] at hres hflag
        simp only at hres hflag
        subst hres hflag
        have := ih r' (runOp_some_isSome r op r' (by rw [hstep]))
        simp [runOps, hstep, this]

theorem runOps_some_inv (ops : List Op) :
    ∀ r r' : OpendalReader, (runOps r ops).2.2 = some r' →
      r'.fetch = r.fetch ∧ r'.contentOf = r.contentOf ∧
      (r.bytes.isSome → r'.bytes.isSome) := by
  induction ops with
  | nil =>
    intro r r' h
    simp only [runOps, Option.some.injEq] at h
    subst h
    exact ⟨rfl, rfl, fun h => h⟩
  | cons op ops ih =>
    intro r r' h
    match hstep : runOp r op with
    | (o, f, none) => simp [runOps, hstep] at h
    | (o, f, some r₁) =>
      simp only [runOps, hstep] at h
      have h1 := runOp_some_fetch r op r₁ (by rw [hstep])
      have h2 := runOp_some_contentOf r op r₁ (by rw [hstep])
      have h3 := runOp_some_isSome r op r₁ (by rw [hstep])
      obtain ⟨g1, g2, g3⟩ := ih r₁ r' h
      exact ⟨g1.trans h1, g2.trans h2, fun _ => g3 h3⟩

theorem runOps_count_le_one (r : OpendalReader) (ops : List Op) :
    (runOps r ops).2.1 ≤ 1 := by
  cases ops with
  | nil => simp [runOps]
  | cons op ops =>
    match hstep : runOp r op with
    | (o, f, none) =>
      simp only [runOps, hstep]
      cases f <;> simp
    | (o, f, some r₁) =>
      have h3 := runOp_some_isSome r op r₁ (by rw [hstep])
      have hz := runOps_count_zero ops r₁ h3
      simp only [runOps, hstep, hz]
      cases f <;> simp

theorem runOps_count_first (r : OpendalReader) (ops : List Op)
    (h : r.bytes = none) (hne : ops ≠ []) : (runOps r ops).2.1 = 1 := by
  cases ops with
  | nil => exact absurd rfl hne
  | cons op ops =>
    have hflag : (runOp r op).2.1 = true := by rw [runOp_flag, h]; rfl
    match hstep : runOp r op with
    | (o, f, none) =>
      rw [hstep] at hflag
      simp only at hflag
      subst hflag
      simp [runOps, hstep]
    | (o, f, some r₁) =>
      rw [hstep] at hflag
      simp only at hflag
      subst hflag
      have h3 := runOp_some_isSome r op r₁ (by rw [hstep])
      have hz := runOps_count_zero ops r₁ h3
      simp [runOps, hstep, hz]

theorem runOp_congr (r₁ r₂ : OpendalReader) (hb : r₁.bytes = r₂.bytes)
    (hf : fetchInit r₁.fetch = fetchInit r₂.fetch) (op : Op) :
    (runOp r₁ op).1 = (runOp r₂ op).1 ∧
    (runOp r₁ op).2.1 = (runOp r₂ op).2.1 ∧
    Option.map OpendalReader.bytes (runOp r₁ op).2.2 =
      Option.map OpendalReader.bytes (runOp r₂ op).2.2 := by
  have hc : r₁.readerCursor = r₂.readerCursor := by
    rw [readerCursor_eq, readerCursor_eq, hb, hf]
  cases op with
  | view =>
    refine ⟨?_, ?_, ?_⟩ <;>
      simp [runOp, to_bytes_eq, hc, hb, get_bytes_state_bytes]
  | read k =>
    cases hcc : r₂.readerCursor with
    | none =>
      have h1 : r₁.readerCursor = none := hc.trans hcc
      simp [runOp, read_of_absent r₁ k h1, read_of_absent r₂ k hcc, hb]
    | some c =>
      have h1 : r₁.readerCursor = some c := hc.trans hcc
      simp [runOp, read_of_cursor r₁ c k h1, read_of_cursor r₂ c k hcc, hb]
  | seek s =>
    cases hcc : r₂.readerCursor with
    | none =>
      have h1 : r₁.readerCursor = none := hc.trans hcc
      simp [runOp, seek_of_absent r₁ s h1, seek_of_absent r₂ s hcc, hb]
    | some c =>
      have h1 : r₁.readerCursor = some c := hc.trans hcc
      simp [runOp, seek_of_cursor r₁ c s h1, seek_of_cursor r₂ c s hcc, hb]

theorem runOps_congr (ops : List Op) :
    ∀ r₁ r₂ : OpendalReader, r₁.bytes = r₂.bytes →
      fetchInit r₁.fetch = fetchInit r₂.fetch →
      (runOps r₁ ops).1 = (runOps r₂ ops).1 ∧
      (runOps r₁ ops).2.1 = (runOps r₂ ops).2.1 ∧
      Option.map OpendalReader.bytes (runOps r₁ ops).2.2 =
        Option.map OpendalReader.bytes (runOps r₂ ops).2.2 := by
  induction ops with
  | nil => intro r₁ r₂ hb _; exact ⟨rfl, rfl, by simp [runOps, hb]⟩
  | cons op ops ih =>
    intro r₁ r₂ hb hf
    obtain ⟨e1, e2, e3⟩ := runOp_congr r₁ r₂ hb hf op
    match hstep₁ : runOp r₁ op with
    | (o₁, f₁, none) =>
      rw [hstep₁] at e1 e2 e3
      match hstep₂ : runOp r₂ op with
      | (o₂, f₂, res₂) =>
        rw [hstep₂] at e1 e2 e3
        simp only at e1 e2 e3
        cases res₂ with
        | none =>
          subst e1 e2
          simp [runOps, hstep₁, hstep₂]
        | some r₂' => simp at e3
    | (o₁, f₁, some r₁') =>
      rw [hstep₁] at e1 e2 e3
      match hstep₂ : runOp r₂ op with
      | (o₂, f₂, res₂) =>
        rw [hstep₂] at e1 e2 e3
        simp only at e1 e2 e3
        cases res₂ with
        | none => simp at e3
        | some r₂' =>
          subst e1 e2
          simp only [Option.map_some', Option.some.injEq] at e3
          have hf₁ := runOp_some_fetch r₁ op r₁' (by rw [hstep₁])
          have hf₂ := runOp_some_fetch r₂ op r₂' (by rw [hstep₂])
          have hf' : fetchInit r₁'.fetch = fetchInit r₂'.fetch := by
            rw [hf₁, hf₂]; exact hf
          obtain ⟨g1, g2, g3⟩ := ih r₁' r₂' e3 hf'
          refine ⟨?_, ?_, ?_⟩ <;> simp [runOps, hstep₁, hstep₂, g1, g2, g3]

theorem cachedContent_of_isSome (r : OpendalReader) (h : r.bytes.isSome) :
    r.cachedContent = some r.contentOf := by
  cases hb : r.bytes with
  | none => rw [hb] at h; simp at h
  | some v =>
    simp [OpendalReader.cachedContent, contentOf_eq, readerCursor_eq, hb]

theorem contentOf_none_iff (r : OpendalReader) :
    r.contentOf = none ↔ r.readerCursor = none := by
  rw [contentOf_eq]
  cases r.readerCursor <;> simp

/-! Theorems for the individual claims. -/

/-- Claim C1: for every adapter instance and every finite sequence of
view/read/seek calls, the fetch runs at most once; starting from the
uninitialized state the first call triggers it (so a nonempty call
sequence performs exactly one fetch), and starting from an initialized
cache no call ever fetches again — also when the cached value is the
absent sentinel (`bytes.isSome` covers both cached outcomes). -/
theorem spec_C1 (r : OpendalReader) (ops : List Op) :
    (runOps r ops).2.1 ≤ 1 ∧
    (r.bytes = none → ops ≠ [] → (runOps r ops).2.1 = 1) ∧
    (r.bytes.isSome → (runOps r ops).2.1 = 0) :=
  ⟨runOps_count_le_one r ops,
   fun h hne => runOps_count_first r ops h hne,
   fun h => runOps_count_zero ops r h⟩

/-- Witness for C1: a fresh adapter over a failing fetch, hit by three
calls (the last of which panics), still fetches exactly once. -/
theorem spec_C1_witness :
    (OpendalReader.new FetchOutcome.pathUnrepresentable).bytes = none ∧
    (runOps (OpendalReader.new FetchOutcome.pathUnrepresentable)
      [Op.view, Op.view, Op.read 1]).2.1 = 1 :=
  ⟨rfl,
   (spec_C1 (OpendalReader.new FetchOutcome.pathUnrepresentable)
       [Op.view, Op.view, Op.read 1]).2.1 rfl (by decide)⟩

/-- Claim C4: when the materialized content is absent (failed fetch or
unrepresentable path), both `read` and `seek` panic (the `unwrap` on the
inner `Option`) instead of returning a reported error; when content is
present, neither call can reach that panicking branch. -/
theorem spec_C4 (r : OpendalReader) (k : Nat) (s : SeekFrom) :
    (r.contentOf = none → (r.read k).2 = none ∧ (r.seek s).2 = none) ∧
    (∀ C, r.contentOf = some C → (r.read k).2 ≠ none ∧ (r.seek s).2 ≠ none) := by
  constructor
  · intro h
    rw [contentOf_none_iff] at h
    rw [read_of_absent r k h, seek_of_absent r s h]
    exact ⟨rfl, rfl⟩
  · intro C h
    cases hc : r.readerCursor with
    | none => rw [contentOf_eq, hc] at h; simp at h
    | some c =>
      rw [read_of_cursor r c k hc, seek_of_cursor r c s hc]
      exact ⟨by simp, by simp⟩

/-- Witness for C4: a fresh adapter over an unrepresentable path panics
on `read` and on `seek`; a fresh adapter over present bytes does not. -/
theorem spec_C4_witness :
    (((OpendalReader.new FetchOutcome.pathUnrepresentable).read 1).2 = none ∧
      ((OpendalReader.new FetchOutcome.pathUnrepresentable).seek
        (SeekFrom.start 0)).2 = none) ∧
    (((OpendalReader.new (FetchOutcome.success [1])).read 1).2 ≠ none ∧
      ((OpendalReader.new (FetchOutcome.success [1])).seek
        (SeekFrom.start 0)).2 ≠ none) :=
  ⟨(spec_C4 (OpendalReader.new FetchOutcome.pathUnrepresentable) 1
      (SeekFrom.start 0)).1 rfl,
   (spec_C4 (OpendalReader.new (FetchOutcome.success [1])) 1
      (SeekFrom.start 0)).2 [1] rfl⟩

/-- Claim C5: `to_bytes` (the view) returns the entire materialized
buffer whenever content is present — whatever the cursor position —
and `none` whenever content is absent (cached-absent, or an
uninitialized cache whose fetch fails); it never fabricates bytes. -/
theorem spec_C5 (r : OpendalReader) :
    (∀ (C : List Byte) (p : Nat), r.bytes = some (some ⟨C, p⟩) →
      (r.to_bytes).1 = some C) ∧
    (r.bytes = some none → (r.to_bytes).1 = none) ∧
    (∀ b, r.bytes = none → r.fetch = FetchOutcome.success b →
      (r.to_bytes).1 = some b) ∧
    (r.bytes = none → fetchInit r.fetch = none → (r.to_bytes).1 = none) := by
  refine ⟨?_, ?_, ?_, ?_⟩
  · intro C p h
    simp [to_bytes_eq, readerCursor_eq, h]
  · intro h
    simp [to_bytes_eq, readerCursor_eq, h]
  · intro b h hf
    simp [to_bytes_eq, readerCursor_eq, h, hf, fetchInit]
  · intro h hf
    simp [to_bytes_eq, readerCursor_eq, h, hf]

/-- Witness for C5: an initialized adapter whose cursor sits past the
end still views the whole buffer; an adapter with a failing fetch views
nothing. -/
theorem spec_C5_witness :
    ((⟨FetchOutcome.success [3, 4], some (some ⟨[3, 4], 9⟩)⟩ :
        OpendalReader).to_bytes).1 = some [3, 4] ∧
    ((OpendalReader.new (FetchOutcome.readErr 7)).to_bytes).1 = none :=
  ⟨(spec_C5 ⟨FetchOutcome.success [3, 4], some (some ⟨[3, 4], 9⟩)⟩).1
      [3, 4] 9 rfl,
   (spec_C5 (OpendalReader.new (FetchOutcome.readErr 7))).2.2.2 rfl rfl⟩

/-- Claim C6: with present content of length L and the read position at
or beyond L (including positions past L reached by a permitted
over-seek), `read` returns count 0, copies nothing, and leaves the
position unchanged — a successful end-of-data result, not a panic or
error. -/
theorem spec_C6 (r : OpendalReader) (C : List Byte) (p k : Nat)
    (h : r.readerCursor = some ⟨C, p⟩) (hp : C.length ≤ p) :
    (r.read k).2 = some (0, [], ⟨r.fetch, some (some ⟨C, p⟩)⟩) ∧
    (⟨r.fetch, some (some ⟨C, p⟩)⟩ : OpendalReader).readerCursor =
      some ⟨C, p⟩ := by
  constructor
  · rw [read_of_cursor r ⟨C, p⟩ k h]
    simp [Cursor.readBytes, Nat.min_eq_right hp]
  · simp [readerCursor_eq]

/-- Witness for C6: content `[1, 2]` with the cursor over-seeked to 5;
a read of 3 bytes returns 0 and stays at 5. -/
theorem spec_C6_witness :
    ((⟨FetchOutcome.success [1, 2], some (some ⟨[1, 2], 5⟩)⟩ :
        OpendalReader).read 3).2 =
      some (0, [], ⟨FetchOutcome.success [1, 2], some (some ⟨[1, 2], 5⟩)⟩) :=
  (spec_C6 ⟨FetchOutcome.success [1, 2], some (some ⟨[1, 2], 5⟩)⟩
      [1, 2] 5 3 rfl (by decide)).1

/-- Claim C9: `to_bytes` (the view) mutates nothing except the one-time
cache initialization it may trigger: on an initialized adapter the state
is returned exactly unchanged (read position included); in general the
resulting state differs from the input only in the cache cell (set to
the value `get_bytes` produces) with the fetch field untouched, and a
second view is a no-op. -/
theorem spec_C9 (r : OpendalReader) :
    (r.bytes.isSome → (r.to_bytes).2.1 = r) ∧
    ((r.to_bytes).2.1.bytes = some r.readerCursor ∧
      (r.to_bytes).2.1.fetch = r.fetch) ∧
    (((r.to_bytes).2.1.to_bytes)).2.1 = (r.to_bytes).2.1 := by
  refine ⟨?_, ⟨?_, ?_⟩, ?_⟩
  · intro h
    cases hb : r.bytes with
    | none => rw [hb] at h; simp at h
    | some v => simp [to_bytes_eq, OpendalReader.get_bytes, hb]
  · rw [to_bytes_eq]
    exact get_bytes_state_bytes r
  · rw [to_bytes_eq]
    exact get_bytes_state_fetch r
  · rw [to_bytes_eq, to_bytes_eq]
    rw [get_bytes_of_init (r.get_bytes).2.1 r.readerCursor
      (get_bytes_state_bytes r)]

/-- Witness for C9: viewing an initialized adapter whose cursor sits at
position 1 returns the state — position included — unchanged. -/
theorem spec_C9_witness :
    ((⟨FetchOutcome.success [8, 9], some (some ⟨[8, 9], 1⟩)⟩ :
        OpendalReader).to_bytes).2.1 =
      ⟨FetchOutcome.success [8, 9], some (some ⟨[8, 9], 1⟩)⟩ :=
  (spec_C9 ⟨FetchOutcome.success [8, 9], some (some ⟨[8, 9], 1⟩)⟩).1
    (by decide)

/-- Claim C10: `get_bytes_mut` forces initialization through
`get_bytes` before calling `OnceLock::get_mut`, so the `Option` that
its own `unwrap` inspects is always `some` — the unwrap in
`get_bytes_mut` can never panic, also when the cached value is the
absent sentinel. -/
theorem spec_C10 (r : OpendalReader) : ((r.get_bytes_mut).1).isSome := by
  rw [get_bytes_mut_eq]
  rfl

/-- Claim C2: on present content `C` of length `L`, `seek(Start, p)` for
`p ≤ L` returns `p` and leaves the cursor at `p`; a following read with
a buffer of length `k` returns `min k (L - p)`, writes exactly
`C[p : p+k]` into the buffer, and leaves the position at `p` plus the
returned count. -/
theorem spec_C2 (r : OpendalReader) (C : List Byte) (p k : Nat)
    (hC : r.contentOf = some C) (hp : p ≤ C.length) :
    (r.seek (SeekFrom.start p)).2 =
      some (some p, (⟨r.fetch, some (some ⟨C, p⟩)⟩ : OpendalReader)) ∧
    ((⟨r.fetch, some (some ⟨C, p⟩)⟩ : OpendalReader).read k).2 =
      some (min k (C.length - p), (C.drop p).take k,
        (⟨r.fetch, some (some ⟨C, p + min k (C.length - p)⟩)⟩ :
          OpendalReader)) ∧
    (⟨r.fetch, some (some ⟨C, p + min k (C.length - p)⟩)⟩ :
        OpendalReader).readerCursor =
      some ⟨C, p + min k (C.length - p)⟩ := by
  obtain ⟨c, hcc, hcd⟩ : ∃ c : Cursor, r.readerCursor = some c ∧ c.data = C := by
    rw [contentOf_eq] at hC
    cases hcc : r.readerCursor with
    | none => rw [hcc] at hC; simp at hC
    | some c =>
      rw [hcc] at hC
      simp only [Option.map_some', Option.some.injEq] at hC
      exact ⟨c, rfl, hC⟩
  refine ⟨?_, ?_, ?_⟩
  · rw [seek_of_cursor r c (SeekFrom.start p) hcc]
    simp [Cursor.seekTo, hcd]
  · rw [read_of_cursor (⟨r.fetch, some (some ⟨C, p⟩)⟩ : OpendalReader)
      ⟨C, p⟩ k (by simp [readerCursor_eq])]
    simp [Cursor.readBytes, Nat.min_eq_left hp, List.length_take,
      List.length_drop]
  · simp [readerCursor_eq]

/-- Witness for C2: content `[5, 6, 7]`, seek to 1, read with a buffer
of length 5: returns 2 bytes `[6, 7]` and ends at position 3. -/
theorem spec_C2_witness :
    ((OpendalReader.new (FetchOutcome.success [5, 6, 7])).seek
        (SeekFrom.start 1)).2 =
      some (some 1,
        ⟨FetchOutcome.success [5, 6, 7], some (some ⟨[5, 6, 7], 1⟩)⟩) ∧
    ((⟨FetchOutcome.success [5, 6, 7], some (some ⟨[5, 6, 7], 1⟩)⟩ :
        OpendalReader).read 5).2 =
      some (2, [6, 7],
        ⟨FetchOutcome.success [5, 6, 7], some (some ⟨[5, 6, 7], 3⟩)⟩) := by
  have h := spec_C2 (OpendalReader.new (FetchOutcome.success [5, 6, 7]))
    [5, 6, 7] 1 5 rfl (by decide)
  exact ⟨h.1, h.2.1⟩

/-- Claim C7: once the cache is initialized (present or absent), every
subsequent call sequence performs zero fetches, and any state reached
without a panic still holds exactly the same cached value: same
initialization, same presence, same bytes. -/
theorem spec_C7 (r : OpendalReader) (ops : List Op) (h : r.bytes.isSome) :
    (runOps r ops).2.1 = 0 ∧
    ∀ r', (runOps r ops).2.2 = some r' →
      r'.cachedContent = r.cachedContent ∧ r'.contentOf = r.contentOf := by
  refine ⟨runOps_count_zero ops r h, ?_⟩
  intro r' h'
  obtain ⟨_, hcont, hsome⟩ := runOps_some_inv ops r r' h'
  refine ⟨?_, hcont⟩
  rw [cachedContent_of_isSome r h, cachedContent_of_isSome r' (hsome h), hcont]

/-- Witness for C7: an adapter initialized with content `[9]`, after a
read and a seek, still caches exactly `[9]` and fetched zero times. -/
theorem spec_C7_witness :
    (runOps (⟨FetchOutcome.success [9], some (some ⟨[9], 0⟩)⟩ :
      OpendalReader) [Op.read 1, Op.seek (SeekFrom.start 0), Op.view]).2.1 = 0 ∧
    (⟨FetchOutcome.success [9], some (some ⟨[9], 0⟩)⟩ :
        OpendalReader).cachedContent = some (some [9]) := by
  have h := spec_C7 (⟨FetchOutcome.success [9], some (some ⟨[9], 0⟩)⟩ :
    OpendalReader) [Op.read 1, Op.seek (SeekFrom.start 0), Op.view] (by decide)
  exact ⟨h.1, by decide⟩

/-- Claim C8: every fetch failure — unrepresentable path or a remote
read error with any error detail — initializes the cache to the same
absent sentinel, and no sequence of adapter calls can distinguish two
failure reasons: the observations and fetch counts coincide. -/
theorem spec_C8 (o₁ o₂ : FetchOutcome)
    (h₁ : ∀ b, o₁ ≠ FetchOutcome.success b)
    (h₂ : ∀ b, o₂ ≠ FetchOutcome.success b) (ops : List Op) :
    fetchInit o₁ = none ∧ fetchInit o₂ = none ∧
    (runOps (OpendalReader.new o₁) ops).1 =
      (runOps (OpendalReader.new o₂) ops).1 ∧
    (runOps (OpendalReader.new o₁) ops).2.1 =
      (runOps (OpendalReader.new o₂) ops).2.1 := by
  have g₁ : fetchInit o₁ = none := by
    cases o₁ with
    | success b => exact absurd rfl (h₁ b)
    | pathUnrepresentable => rfl
    | readErr e => rfl
  have g₂ : fetchInit o₂ = none := by
    cases o₂ with
    | success b => exact absurd rfl (h₂ b)
    | pathUnrepresentable => rfl
    | readErr e => rfl
  obtain ⟨e1, e2, _⟩ := runOps_congr ops (OpendalReader.new o₁)
    (OpendalReader.new o₂) rfl (g₁.trans g₂.symm)
  exact ⟨g₁, g₂, e1, e2⟩

/-- Witness for C8: an unrepresentable path and a remote error with
detail 42 produce identical observations over view-then-read. -/
theorem spec_C8_witness :
    fetchInit FetchOutcome.pathUnrepresentable = none ∧
    (runOps (OpendalReader.new FetchOutcome.pathUnrepresentable)
        [Op.view, Op.read 1]).1 =
      (runOps (OpendalReader.new (FetchOutcome.readErr 42))
        [Op.view, Op.read 1]).1 := by
  have h := spec_C8 FetchOutcome.pathUnrepresentable (FetchOutcome.readErr 42)
    (fun b hb => FetchOutcome.noConfusion hb)
    (fun b hb => FetchOutcome.noConfusion hb) [Op.view, Op.read 1]
  exact ⟨h.1, h.2.2.1⟩

/-- The mathematical seek target: the position recomputed relative to
start-of-buffer, current position, or content length, per the chosen
origin (the spec's description of the seek semantics). -/
def seekTarget (c : Cursor) : SeekFrom → Int
  | .start n => (n : Int)
  | .endPos off => (c.data.length : Int) + off
  | .current off => (c.pos : Int) + off

/-- Representability of a `io::SeekFrom` argument on the Rust side:
`Start` carries a u64, `End` and `Current` carry an i64. -/
def SeekFrom.wf : SeekFrom → Prop
  | .start n => n < U64_SIZE
  | .endPos off => -((2 ^ 63 : Nat) : Int) ≤ off ∧ off < ((2 ^ 63 : Nat) : Int)
  | .current off => -((2 ^ 63 : Nat) : Int) ≤ off ∧ off < ((2 ^ 63 : Nat) : Int)

theorem checkedAddSigned_of_valid (base : Nat) (off : Int)
    (h1 : 0 ≤ (base : Int) + off)
    (h2 : (base : Int) + off < (U64_SIZE : Int)) :
    checkedAddSigned base off = some ((base : Int) + off).toNat := by
  simp [checkedAddSigned, h1, h2]

theorem checkedAddSigned_of_invalid (base : Nat) (off : Int)
    (h : (base : Int) + off < 0 ∨ (U64_SIZE : Int) ≤ (base : Int) + off) :
    checkedAddSigned base off = none := by
  have hn : ¬(0 ≤ (base : Int) + off ∧
      (base : Int) + off < (U64_SIZE : Int)) := by
    rcases h with h | h
    · exact fun hc => absurd hc.1 (not_le.mpr h)
    · exact fun hc => absurd hc.2 (not_lt.mpr h)
  simp [checkedAddSigned, hn]

/-- Counterexample to claim C3 as stated: position `2^64 - 1` is
reachable by a permitted over-seek on a one-byte content, and from
there `seek(Current, 1)` targets the non-negative position `2^64` yet
returns an error (u64 overflow in `checked_add_signed`), with the
position left unchanged — so "error iff the resulting position would
be negative" and "any non-negative target succeeds" are both false. -/
theorem spec_C3_cex :
    ((OpendalReader.new (FetchOutcome.success [0])).seek
        (SeekFrom.start (U64_SIZE - 1))).2 =
      some (some (U64_SIZE - 1),
        ⟨FetchOutcome.success [0], some (some ⟨[0], U64_SIZE - 1⟩)⟩) ∧
    ((⟨FetchOutcome.success [0], some (some ⟨[0], U64_SIZE - 1⟩)⟩ :
        OpendalReader).seek (SeekFrom.current 1)).2 =
      some (none,
        ⟨FetchOutcome.success [0], some (some ⟨[0], U64_SIZE - 1⟩)⟩) ∧
    (0 : Int) ≤ ((U64_SIZE - 1 : Nat) : Int) + 1 := by
  refine ⟨?_, ?_, ?_⟩ <;> decide

/-- Claim C3 (amended): on present content, seek recomputes the
position from start-of-buffer, the current position, or the content
length per the chosen origin and returns it; it errors if and only if
the recomputed target is negative **or does not fit in a u64**
(≥ 2^64), leaving the position unchanged in that case; any target in
`[0, 2^64)` — including targets strictly greater than the content
length — succeeds, and `seek(End, 0)` returns the content length. -/
theorem spec_C3 (r : OpendalReader) (c : Cursor) (s : SeekFrom)
    (hc : r.readerCursor = some c) (hL : c.data.length < U64_SIZE)
    (hs : s.wf) :
    (0 ≤ seekTarget c s ∧ seekTarget c s < (U64_SIZE : Int) →
      (r.seek s).2 = some (some (seekTarget c s).toNat,
        ⟨r.fetch, some (some ⟨c.data, (seekTarget c s).toNat⟩)⟩)) ∧
    (seekTarget c s < 0 ∨ (U64_SIZE : Int) ≤ seekTarget c s →
      (r.seek s).2 = some (none, ⟨r.fetch, some (some c)⟩)) ∧
    (r.seek (SeekFrom.endPos 0)).2 = some (some c.data.length,
      ⟨r.fetch, some (some ⟨c.data, c.data.length⟩)⟩) := by
  refine ⟨?_, ?_, ?_⟩
  · intro h
    rw [seek_of_cursor r c s hc]
    cases s with
    | start n =>
      simp [Cursor.seekTo, seekTarget]
    | endPos off =>
      rw [Cursor.seekTo,
        checkedAddSigned_of_valid c.data.length off h.1 h.2]
      simp [seekTarget]
    | current off =>
      rw [Cursor.seekTo, checkedAddSigned_of_valid c.pos off h.1 h.2]
      simp [seekTarget]
  · intro h
    rw [seek_of_cursor r c s hc]
    cases s with
    | start n =>
      exfalso
      rcases h with h | h
      · exact absurd (Nat.cast_nonneg n) (not_le.mpr h)
      · exact absurd (Nat.cast_le.mp h) (not_le.mpr hs)
    | endPos off =>
      rw [Cursor.seekTo, checkedAddSigned_of_invalid c.data.length off h]
    | current off =>
      rw [Cursor.seekTo, checkedAddSigned_of_invalid c.pos off h]
  · rw [seek_of_cursor r c (SeekFrom.endPos 0) hc]
    rw [Cursor.seekTo, checkedAddSigned_of_valid c.data.length 0
      (by positivity) (by rw [Int.add_zero]; exact_mod_cast hL)]
    simp

/-- Witness for C3 (amended): on content `[7, 8]` at position 0,
`seek(Current, -1)` targets −1 and errors with the position unchanged,
while `seek(End, 0)` returns the length 2. -/
theorem spec_C3_witness :
    ((⟨FetchOutcome.success [7, 8], some (some ⟨[7, 8], 0⟩)⟩ :
        OpendalReader).seek (SeekFrom.current (-1))).2 =
      some (none, ⟨FetchOutcome.success [7, 8], some (some ⟨[7, 8], 0⟩)⟩) ∧
    ((⟨FetchOutcome.success [7, 8], some (some ⟨[7, 8], 0⟩)⟩ :
        OpendalReader).seek (SeekFrom.endPos 0)).2 =
      some (some 2,
        ⟨FetchOutcome.success [7, 8], some (some ⟨[7, 8], 2⟩)⟩) := by
  have h := spec_C3 (⟨FetchOutcome.success [7, 8], some (some ⟨[7, 8], 0⟩)⟩ :
      OpendalReader) ⟨[7, 8], 0⟩ (SeekFrom.current (-1)) rfl (by decide)
    (by
      show -((2 ^ 63 : Nat) : Int) ≤ (-1 : Int) ∧
        (-1 : Int) < ((2 ^ 63 : Nat) : Int)
      decide)
  exact ⟨h.2.1 (Or.inl (by decide)), h.2.2⟩

end Opendal
